import Mathlib

/-!
Verification of the quota-aware cache/refresh core of the gh-user-report action.

Shallow embedding conventions:
- Timestamps are milliseconds since epoch, as `Nat` (JS `Date` values are
  integral millisecond counts in all the code paths modelled here).
- A JS `null` / `undefined` timestamp is `Option.none`.
- The remote API is modelled by an explicit outcome parameter (success with
  payload and reported remaining quota, or an error that the source catches).
- Unbounded retry loops take explicit fuel and return `Option`.

The file is organised as definitions first (translated from the JavaScript
sources), then the theorems about them.
-/

namespace UserReport

/-- One millisecond-count day: `1000 * 60 * 60 * 24` from the source. -/
def dayMs : Nat := 1000 * 60 * 60 * 24

/-- `Math.ceil(a / b)` for non-negative integral `a`, positive `b`. -/
def jsCeilDiv (a b : Nat) : Nat := (a + b - 1) / b

/-- The safety floor used by both providers: refresh/lookup stops when the
remote-reported remaining quota drops below 5. -/
def safetyFloor : Nat := 5

/-! ## Activity cache records (`storageTableclient.js`) -/

/-- A row of the `usersaudit` table: `rowKey` is the login, `lastActivityDate`
and `lastUpdated` are nullable timestamps. -/
structure CachedRecord where
  rowKey : String
  lastActivityDate : Option Nat
  lastUpdated : Option Nat
deriving DecidableEq, Repr

/-- The sort key used by `refreshUserData`:
`a.lastUpdated ? new Date(a.lastUpdated) : new Date(0)` — null is epoch 0. -/
def keyOf (u : CachedRecord) : Nat :=
  match u.lastUpdated with
  | some t => t
  | none => 0

/-- Comparator order of the `sort((a, b) => aDate - bDate)` call. -/
def leKey (a b : CachedRecord) : Prop := keyOf a ≤ keyOf b

instance : DecidableRel leKey := fun a b => Nat.decLe (keyOf a) (keyOf b)

instance : IsTotal CachedRecord leKey :=
  ⟨fun a b => Nat.le_total (keyOf a) (keyOf b)⟩

instance : IsTrans CachedRecord leKey :=
  ⟨fun _ _ _ => Nat.le_trans⟩

/-- The in-place ascending sort by `lastUpdated` (null as epoch zero) performed
at the top of both `refreshUserData` implementations. -/
def sortByLastUpdated (users : List CachedRecord) : List CachedRecord :=
  List.insertionSort leKey users

/-- `this.users.sort(...).slice(0, budget)`: the records a bulk refresh run
selects, in processing order. -/
def selectUsersToRefresh (users : List CachedRecord) (budget : Nat) : List CachedRecord :=
  (sortByLastUpdated users).take budget

/-- Per-run budget of `LastActivityProvider.refreshUserData` (`slice(0, 1750)`). -/
def auditRefreshBudget : Nat := 1750

/-- Per-run budget of `UserAccountProvider.refreshUserData` (`slice(0, 2000)`). -/
def userRefreshBudget : Nat := 2000

/-! ## Bulk refresh loop (`LastActivityProvider.refreshUserData` body) -/

/-- Outcome of one `manager.getLastActivityForUser` call: an error (caught and
logged by the loop) or a payload with the remote-reported remaining quota. -/
inductive FetchOutcome where
  | err
  | ok (lastActivityDate : Option Nat) (rateLimitRemaining : Nat)
deriving DecidableEq, Repr

/-- What a bulk refresh run did: how many cache upserts and remote calls. -/
structure RefreshTrace where
  upserts : Nat
  calls : Nat
deriving DecidableEq, Repr

/-- Does the outcome report remaining quota at or above the safety floor? -/
def okAbove (o : FetchOutcome) : Bool :=
  match o with
  | .ok _ r => decide (safetyFloor ≤ r)
  | .err => false

/-- Does the outcome report remaining quota below the safety floor? -/
def okBelow (o : FetchOutcome) : Bool :=
  match o with
  | .ok _ r => decide (r < safetyFloor)
  | .err => false

/-- The `for (const user of usersToCheck)` loop of `refreshUserData`:
call the remote source; on error, warn and continue; on success, upsert and
then stop if the reported remaining quota is below the safety floor.
`oracle i` is the outcome of the `i`-th remote call of the run. -/
def refreshLoop (oracle : Nat → FetchOutcome) : List CachedRecord → Nat → RefreshTrace
  | [], _ => ⟨0, 0⟩
  | _ :: rest, i =>
    match oracle i with
    | .err =>
      let r := refreshLoop oracle rest (i + 1)
      ⟨r.upserts, r.calls + 1⟩
    | .ok _ rem =>
      if rem < safetyFloor then ⟨1, 1⟩
      else
        let r := refreshLoop oracle rest (i + 1)
        ⟨r.upserts + 1, r.calls + 1⟩

/-- `LastActivityProvider.refreshUserData`: select the 1750 stalest records and
run the refresh loop over them. -/
def refreshUserData (oracle : Nat → FetchOutcome) (users : List CachedRecord) : RefreshTrace :=
  refreshLoop oracle (selectUsersToRefresh users auditRefreshBudget) 0

/-! ## Staleness policy (`UserAccountProvider.getUserData`) -/

/-- `Math.ceil(Math.abs(currentDate - lastUpdatedDate) / (1000*60*60*24))`. -/
def diffDays (now lastUpdated : Nat) : Nat :=
  jsCeilDiv (Int.natAbs ((now : Int) - (lastUpdated : Int))) dayMs

/-- The staleness decision of `getUserData`: refresh when `lastUpdated` is
null, or when the elapsed whole-day count (rounded up) exceeds 3 days. -/
def needToUpdate (now : Nat) (lastUpdated : Option Nat) : Bool :=
  match lastUpdated with
  | some t => decide (3 < diffDays now t)
  | none => true

/-! ## Paginated traversal with one-time quota check
(`UserManager.getConsumedLicenses`) -/

/-- One page of the consumed-licenses endpoint: the number of users it carries
and the constant `total_seats_consumed` it reports. -/
structure LicensePage where
  usersCount : Nat
  total_seats_consumed : Nat
deriving DecidableEq, Repr

/-- `page_size = 100` from the source. -/
def page_size : Nat := 100

/-- `safetyMargin = 10`: the `+ 10` buffer added to the computed call count. -/
def safetyMargin : Nat := 10

/-- Result of a full traversal: users collected and the quota checks issued,
each recorded as (page index it was issued on, requested call count). -/
structure LicenseTrace where
  usersCollected : Nat
  checks : List (Nat × Nat)
deriving DecidableEq, Repr

/-- The `for await (const response of ...)` loop of `getConsumedLicenses`:
collect each page's users; on the first page whose reported total exceeds the
page size (and only while `page_check_done` is false), issue a single
`hold_until_rate_limit_success` sized `ceil(total/page_size) + 10`. -/
def consumedLoop : List LicensePage → Bool → Nat → LicenseTrace
  | [], _, _ => ⟨0, []⟩
  | p :: rest, done, idx =>
    if done = false ∧ page_size < p.total_seats_consumed then
      let r := consumedLoop rest true (idx + 1)
      ⟨p.usersCount + r.usersCollected,
        (idx, jsCeilDiv p.total_seats_consumed page_size + safetyMargin) :: r.checks⟩
    else
      let r := consumedLoop rest done (idx + 1)
      ⟨p.usersCount + r.usersCollected, r.checks⟩

/-- `UserManager.getConsumedLicenses` over a given page sequence. -/
def getConsumedLicenses (pages : List LicensePage) : LicenseTrace :=
  consumedLoop pages false 0

/-! ## Bulk insert (`StorageTableClient.bulkInsert`) -/

/-- A table entity as built by `bulkInsert`: fixed partition key, the login as
row key, null activity date and null `lastUpdated`. -/
structure TableEntity where
  partitionKey : String
  rowKey : String
  lastActivityDate : Option Nat
  lastUpdated : Option Nat
deriving DecidableEq, Repr

/-- `StorageTableClient.bulkInsert`: map every login to a placeholder entity,
put them all in ONE `TableTransaction`, and submit that single transaction.
The result is the list of batches submitted to the backing store. -/
def bulkInsert (userLogins : List String) : List (List TableEntity) :=
  [userLogins.map (fun login => ⟨"audit", login, none, none⟩)]

/-- Sizes of the batches a `bulkInsert` call submits. -/
def submittedBatchSizes (userLogins : List String) : List Nat :=
  (bulkInsert userLogins).map List.length

/-- 101 distinct logins: one more than the backing store's per-batch limit. -/
def c5_logins : List String := (List.range 101).map (fun i => toString i)

/-! ## Quota gate (`rateLimit.js`) -/

/-- A JS value that may reach `waitIfNotEnoughCalls` as its `remaining`
argument: either a number, or a response-headers object (whose numeric
coercion is NaN, so every `<` comparison on it is false). -/
inductive JSVal where
  | num (n : Nat)
  | headersObj (remaining : Nat)
deriving DecidableEq, Repr

/-- JS `remaining < callsNeeded` for the values that can flow in: a numeric
comparison for numbers; for a headers object, `ToPrimitive` yields a string,
`ToNumber` yields NaN, and `NaN < n` is false. -/
def jsLt (remaining : JSVal) (callsNeeded : Nat) : Bool :=
  match remaining with
  | .num n => decide (n < callsNeeded)
  | .headersObj _ => false

/-- JS truthiness of the optional `initialHeaders` argument: a number is
truthy iff non-zero; an object is always truthy. -/
def jsTruthy (v : JSVal) : Bool :=
  match v with
  | .num n => decide (n ≠ 0)
  | .headersObj _ => true

/-- `getRateLimit`: probe the remote quota; on any failure, return 0. -/
def getRateLimit (probeResult : Option Nat) : Nat :=
  match probeResult with
  | some remaining => remaining
  | none => 0

/-- `waitIfNotEnoughCalls`: if `remaining < callsNeeded`, sleep 60 seconds and
report false (not enough); otherwise report true (enough, continue). -/
def waitIfNotEnoughCalls (remaining : JSVal) (callsNeeded : Nat) : Bool :=
  !(jsLt remaining callsNeeded)

/-- What a gate invocation did: how many probe calls and 60-second sleeps. -/
structure GateTrace where
  probes : Nat
  waits : Nat
deriving DecidableEq, Repr

/-- The `while (true)` loop of `callGitHubAPI`: probe, check, break when
enough, otherwise sleep and retry. `probeSeq i` is the outcome of the `i`-th
probe (`none` = the probe itself failed). Fuel bounds the unbounded loop;
`none` means the loop was still running when fuel ran out. -/
def callGitHubAPILoop (probeSeq : Nat → Option Nat) (callsNeeded : Nat) :
    Nat → Nat → Option GateTrace
  | 0, _ => none
  | fuel + 1, i =>
    let remaining := getRateLimit (probeSeq i)
    if waitIfNotEnoughCalls (.num remaining) callsNeeded then some ⟨1, 0⟩
    else
      match callGitHubAPILoop probeSeq callsNeeded fuel (i + 1) with
      | some t => some ⟨t.probes + 1, t.waits + 1⟩
      | none => none

/-- `callGitHubAPI`: run the probe loop from the first probe. -/
def callGitHubAPI (probeSeq : Nat → Option Nat) (callsNeeded fuel : Nat) :
    Option GateTrace :=
  callGitHubAPILoop probeSeq callsNeeded fuel 0

/-- `hold_until_rate_limit_success`: when a truthy `initialHeaders` value is
supplied, check it first and return immediately (zero probes, zero waits) if
the check reports enough; otherwise (one sleep already taken) fall through to
the probe loop. Without it, go straight to the probe loop. -/
def hold_until_rate_limit_success (callsNeeded : Nat) (initialHeaders : Option JSVal)
    (probeSeq : Nat → Option Nat) (fuel : Nat) : Option GateTrace :=
  match initialHeaders with
  | some h =>
    if jsTruthy h then
      if waitIfNotEnoughCalls h callsNeeded then some ⟨0, 0⟩
      else
        match callGitHubAPI probeSeq callsNeeded fuel with
        | some t => some ⟨t.probes, t.waits + 1⟩
        | none => none
    else callGitHubAPI probeSeq callsNeeded fuel
  | none => callGitHubAPI probeSeq callsNeeded fuel

/-! ## Point lookups (`LastActivityProvider.getLastActivityDateForUser`,
`UserAccountProvider.getUserData`) -/

/-- Result shape of `getLastActivityDateForUser`. -/
structure ActivityLookupResult where
  lastActivityDate : Option Nat
  lastChecked : Option Nat
deriving DecidableEq, Repr

/-- What a cached activity lookup did. -/
structure CachedLookupTrace where
  result : ActivityLookupResult
  remoteCalls : Nat
  cacheWrites : Nat
deriving DecidableEq, Repr

/-- The cache branch of `LastActivityProvider.getLastActivityDateForUser`:
find the row by login and return its fields; a missing key yields nulls with a
warning. No remote call and no cache write on any path. -/
def getLastActivityDateForUserCached (users : List CachedRecord) (login : String) :
    CachedLookupTrace :=
  match users.find? (fun u => u.rowKey = login) with
  | some u => ⟨⟨u.lastActivityDate, u.lastUpdated⟩, 0, 0⟩
  | none => ⟨⟨none, none⟩, 0, 0⟩

/-- Result shape of `getLastActivityDateForUser` when no cache is configured:
payload plus the tracked remaining quota. -/
structure NoCacheResult where
  lastActivityDate : Option Nat
  lastChecked : Option Nat
  rateLimitRemaining : Nat
deriving DecidableEq, Repr

/-- The no-cache branch of `getLastActivityDateForUser`: if the tracked
remaining quota is below the safety floor, return nulls without calling the
remote source; otherwise call it, updating the tracked quota on success and
returning nulls (quota unchanged) on a caught error. Returns the result, the
new tracked quota, and the number of remote calls made (0 or 1). -/
def getLastActivityNoCache (rl now : Nat) (remote : FetchOutcome) :
    NoCacheResult × Nat × Nat :=
  if rl < safetyFloor then (⟨none, none, rl⟩, rl, 0)
  else
    match remote with
    | .ok d r => (⟨d, some now, r⟩, r, 1)
    | .err => (⟨none, none, rl⟩, rl, 1)

/-- A run of successive no-cache point lookups, threading the tracked quota;
returns the results, the final tracked quota, and the total remote calls. -/
def runNoCacheLookups (rl now : Nat) : List FetchOutcome → List NoCacheResult × Nat × Nat
  | [] => ([], rl, 0)
  | remote :: rest =>
    let step := getLastActivityNoCache rl now remote
    let restRun := runNoCacheLookups step.2.1 now rest
    (step.1 :: restRun.1, restRun.2.1, step.2.2 + restRun.2.2)

/-- Public user profile fields as returned by `GET /users/{login}`. -/
structure UserData where
  login : String
  id : Option Nat
  type : Option String
  created_at : Option Nat
  updated_at : Option Nat
  company : Option String
  name : Option String
deriving DecidableEq, Repr

/-- A row of the `userspublicdata` table. -/
structure UserRec where
  rowKey : String
  id : Option Nat
  type : Option String
  created_at : Option Nat
  updated_at : Option Nat
  company : Option String
  name : Option String
  lastUpdated : Option Nat
deriving DecidableEq, Repr

/-- Outcome of one `manager.getUser` call. -/
inductive UserFetch where
  | err
  | ok (userData : UserData) (rateLimitRemaining : Nat)
deriving DecidableEq, Repr

/-- The all-null user object returned on a missing key or exhausted quota. -/
def emptyUserData (login : String) : UserData :=
  ⟨login, none, none, none, none, none, none⟩

/-- The user object assembled from a cached row (fresh or low-quota return). -/
def cachedUserData (login : String) (u : UserRec) : UserData :=
  ⟨login, u.id, u.type, u.created_at, u.updated_at, u.company, u.name⟩

/-- What a cached `getUserData` call did. -/
structure UserLookupTrace where
  result : UserData
  users : List UserRec
  rateLimitRemaining : Nat
  remoteCalls : Nat
  upserts : Nat
deriving DecidableEq, Repr

/-- The cache branch of `UserAccountProvider.getUserData`: missing key returns
the empty object; a fresh record is returned from cache; a stale record is
returned from cache when the tracked quota is below the safety floor; otherwise
the remote source is called, the row is upserted with `lastUpdated = now`, and
the live data is returned. A remote error propagates (`Except.error`), since
this branch has no try/catch in the source. -/
def getUserDataCached (users : List UserRec) (login : String) (now rl : Nat)
    (remote : UserFetch) : Except Unit UserLookupTrace :=
  match users.find? (fun u => u.rowKey = login) with
  | none => .ok ⟨emptyUserData login, users, rl, 0, 0⟩
  | some u =>
    if needToUpdate now u.lastUpdated = false then
      .ok ⟨cachedUserData login u, users, rl, 0, 0⟩
    else if rl < safetyFloor then
      .ok ⟨cachedUserData login u, users, rl, 0, 0⟩
    else
      match remote with
      | .err => .error ()
      | .ok data rem =>
        let updated : UserRec :=
          ⟨u.rowKey, data.id, data.type, data.created_at, data.updated_at,
            data.company, data.name, some now⟩
        .ok ⟨data, users.map (fun v => if v.rowKey = login then updated else v),
          rem, 1, 1⟩

/-! ## Concrete inputs used by witnesses and counterexamples -/

/-- C1 witness record: timestamp T-1d with T = 10 days. -/
def c1_fresh : CachedRecord := ⟨"fresh", none, some (9 * dayMs)⟩

/-- C1 witness record: null `lastUpdated`. -/
def c1_null : CachedRecord := ⟨"nullrec", none, none⟩

/-- C1 witness record: timestamp T-5d. -/
def c1_old : CachedRecord := ⟨"old", none, some (5 * dayMs)⟩

/-- C1 witness cache, in scrambled input order. -/
def c1_users : List CachedRecord := [c1_fresh, c1_null, c1_old]

/-- Ten stale records (all null `lastUpdated`, distinct keys) for the C2 witness. -/
def c2_users : List CachedRecord :=
  (List.range 10).map (fun i => ⟨toString i, none, none⟩)

/-- Oracle for the C2 witness: plenty of quota for the first two calls, then
the third call reports quota below the safety floor. -/
def c2_oracle (i : Nat) : FetchOutcome :=
  if i < 2 then .ok (some 0) 100 else .ok (some 0) 3

/-- Page sequence for the C4 witness: totalCount 301, page size 100. -/
def c4_pages : List LicensePage := [⟨100, 301⟩, ⟨100, 301⟩, ⟨100, 301⟩, ⟨1, 301⟩]

/-- A single stale cached user row for the C8/C10 scenarios. -/
def c8_user : UserRec := ⟨"alice", some 1, some "User", none, none, none, none, some 0⟩

/-- Live data returned by the remote source in the C8 scenario. -/
def c8_live : UserData :=
  ⟨"alice", some 1, some "User", some 5, some 6, some "acme", some "Alice"⟩

/-- A one-row activity cache for the C8 witness. -/
def c8_activity_users : List CachedRecord := [⟨"alice", some 7, some 0⟩]

/-!
# Theorems
-/

/-- C1: the records a bulk refresh selects are the first `budget` records of
the cache sorted ascending by `lastUpdated` (null as epoch zero), processed in
non-decreasing order: the selection is sorted, has length `min budget n`, every
selected record is no newer than every unselected one, and together with the
unselected records it is a permutation of the cache. -/
theorem refresh_selection_is_stalest_first (users : List CachedRecord) (budget : Nat) :
    List.Sorted leKey (selectUsersToRefresh users budget)
    ∧ (selectUsersToRefresh users budget).length = min budget users.length
    ∧ (∀ x ∈ selectUsersToRefresh users budget,
        ∀ y ∈ (sortByLastUpdated users).drop budget, keyOf x ≤ keyOf y)
    ∧ (selectUsersToRefresh users budget ++ (sortByLastUpdated users).drop budget).Perm users := by
  have hsorted : List.Sorted leKey (sortByLastUpdated users) :=
    List.sorted_insertionSort leKey users
  have hsplit : (sortByLastUpdated users).take budget ++ (sortByLastUpdated users).drop budget
      = sortByLastUpdated users := List.take_append_drop budget (sortByLastUpdated users)
  refine ⟨?_, ?_, ?_, ?_⟩
  · exact List.Pairwise.sublist (List.take_sublist budget (sortByLastUpdated users)) hsorted
  · have hlen : (sortByLastUpdated users).length = users.length :=
      List.length_insertionSort leKey users
    simp [selectUsersToRefresh, List.length_take, hlen]
  · intro x hx y hy
    have hpair : List.Pairwise leKey
        ((sortByLastUpdated users).take budget ++ (sortByLastUpdated users).drop budget) := by
      rw [hsplit]; exact hsorted
    exact (List.pairwise_append.mp hpair).2.2 x hx y hy
  · have : (sortByLastUpdated users).Perm users := List.perm_insertionSort leKey users
    simpa [selectUsersToRefresh, hsplit] using this

/-- C1 witness: on records with timestamps [null, T-5d, T-1d] and budget 2,
exactly the null and T-5d records are selected, in that order, and the selected
list is sorted as the theorem states at this concrete input. -/
theorem refresh_selection_is_stalest_first_witness :
    selectUsersToRefresh c1_users 2 = [c1_null, c1_old]
    ∧ List.Sorted leKey (selectUsersToRefresh c1_users 2)
    ∧ (selectUsersToRefresh c1_users 2).length = min 2 c1_users.length := by
  refine ⟨by decide, (refresh_selection_is_stalest_first c1_users 2).1,
    (refresh_selection_is_stalest_first c1_users 2).2.1⟩

/-- C2: if the first `j` remote calls succeed with quota at or above the floor
and the `(j+1)`-st succeeds reporting quota below the floor (with more records
still selected), the loop performs exactly `j+1` upserts and exactly `j+1`
remote calls: it stops immediately, leaving the rest untouched. -/
theorem refresh_stops_below_safety_floor (us : List CachedRecord)
    (oracle : Nat → FetchOutcome) (s j : Nat)
    (hj : j < us.length)
    (hbefore : ∀ i, i < j → okAbove (oracle (s + i)) = true)
    (hat : okBelow (oracle (s + j)) = true) :
    refreshLoop oracle us s = ⟨j + 1, j + 1⟩ := by
  induction us generalizing s j with
  | nil => exact absurd hj (Nat.not_lt_zero j)
  | cons u rest ih =>
    match j with
    | 0 =>
      have hat0 : okBelow (oracle s) = true := by simpa using hat
      match ho : oracle s with
      | .err => rw [ho] at hat0; simp [okBelow] at hat0
      | .ok d rem =>
        rw [ho] at hat0
        have hlt : rem < safetyFloor := by simpa [okBelow] using hat0
        simp [refreshLoop, ho, hlt]
    | j' + 1 =>
      have h0 : okAbove (oracle s) = true := by
        have := hbefore 0 (Nat.succ_pos j')
        simpa using this
      match ho : oracle s with
      | .err => rw [ho] at h0; simp [okAbove] at h0
      | .ok d rem =>
        rw [ho] at h0
        have hge : safetyFloor ≤ rem := by simpa [okAbove] using h0
        have hnlt : ¬ rem < safetyFloor := Nat.not_lt.mpr hge
        have hrec : refreshLoop oracle rest (s + 1) = ⟨j' + 1, j' + 1⟩ := by
          apply ih (s + 1) j' (Nat.lt_of_succ_lt_succ (by simpa using hj))
          · intro i hi
            have := hbefore (i + 1) (Nat.succ_lt_succ hi)
            simpa [Nat.add_assoc, Nat.add_comm 1 i] using this
          · have := hat
            simpa [Nat.add_assoc, Nat.add_comm 1 j'] using this
        simp [refreshLoop, ho, hnlt, hrec]

/-- C2 witness: with 10 stale records and a quota that drops below the floor
after item 3, the run makes exactly 3 upserts and exactly 3 remote calls. -/
theorem refresh_stops_below_safety_floor_witness :
    refreshUserData c2_oracle c2_users = ⟨3, 3⟩ := by
  exact refresh_stops_below_safety_floor
    (selectUsersToRefresh c2_users auditRefreshBudget) c2_oracle 0 2
    (by decide) (by decide) (by decide)

/-- C3: a record with null `lastUpdated` is always stale; for a record updated
at `t ≤ now`, staleness holds exactly when the elapsed time strictly exceeds
the 3-day freshness window; and an elapsed time of 2.01 days rounds up to a
staleness age of 3 whole days (hence is not yet past the window). -/
theorem staleness_policy_correct (now t : Nat) (h : t ≤ now) :
    needToUpdate now none = true
    ∧ (needToUpdate now (some t) = true ↔ 3 * dayMs < now - t)
    ∧ diffDays (t + 173664000) t = 3 := by
  have hday : dayMs = 86400000 := by norm_num [dayMs]
  refine ⟨rfl, ?_, ?_⟩
  · have habs : Int.natAbs ((now : Int) - (t : Int)) = now - t := by
      omega
    have hdvd : 0 < dayMs := by norm_num [dayMs]
    constructor
    · intro hst
      have h3 : 3 < diffDays now t := by simpa [needToUpdate] using hst
      have h4 : 4 ≤ (now - t + dayMs - 1) / dayMs := by
        simpa [diffDays, jsCeilDiv, habs] using h3
      have := (Nat.le_div_iff_mul_le hdvd).mp h4
      omega
    · intro hgt
      have h4 : 4 * dayMs ≤ now - t + dayMs - 1 := by omega
      have h4' : 4 ≤ (now - t + dayMs - 1) / dayMs :=
        (Nat.le_div_iff_mul_le hdvd).mpr h4
      have h3 : 3 < diffDays now t := by
        simpa [diffDays, jsCeilDiv, habs] using h4'
      simpa [needToUpdate] using h3
  · have habs : Int.natAbs (((t + 173664000 : Nat) : Int) - (t : Int)) = 173664000 := by
      omega
    simp [diffDays, habs, jsCeilDiv, hday]

/-- C3 witness: at `now = 173664000` (2.01 days) and `t = 0`, the null record
is stale, staleness of the timestamped record matches window exceedance, and
the elapsed 2.01 days round up to 3 whole days. -/
theorem staleness_policy_correct_witness :
    (0 : Nat) ≤ 173664000
    ∧ (needToUpdate 173664000 none = true
      ∧ (needToUpdate 173664000 (some 0) = true ↔ 3 * dayMs < 173664000 - 0)
      ∧ diffDays (0 + 173664000) 0 = 3) :=
  ⟨by decide, staleness_policy_correct 173664000 0 (by decide)⟩

/-- Once `page_check_done` is true, no further quota checks are issued. -/
theorem consumedLoop_done_no_checks (pages : List LicensePage) (idx : Nat) :
    (consumedLoop pages true idx).checks = [] := by
  induction pages generalizing idx with
  | nil => rfl
  | cons p rest ih => simp [consumedLoop, ih]

/-- C4: over any traversal whose pages all report the same `totalCount`,
exactly one quota check is issued — on the first page, sized
`ceil(totalCount/pageSize) + margin` — when more results remain
(`totalCount > pageSize`), and none at all otherwise. -/
theorem one_quota_check_per_traversal (p : LicensePage) (rest : List LicensePage)
    (T : Nat) (hall : ∀ q ∈ p :: rest, q.total_seats_consumed = T) :
    (page_size < T →
      (getConsumedLicenses (p :: rest)).checks = [(0, jsCeilDiv T page_size + safetyMargin)])
    ∧ (T ≤ page_size → (getConsumedLicenses (p :: rest)).checks = []) := by
  have hp : p.total_seats_consumed = T := hall p (List.mem_cons_self p rest)
  constructor
  · intro hT
    simp [getConsumedLicenses, consumedLoop, hp, hT, consumedLoop_done_no_checks]
  · intro hT
    have hrest : ∀ (qs : List LicensePage) (idx : Nat),
        (∀ q ∈ qs, q.total_seats_consumed = T) →
        (consumedLoop qs false idx).checks = [] := by
      intro qs
      induction qs with
      | nil => intro idx _; rfl
      | cons q qs' ih =>
        intro idx hq
        have hqT : q.total_seats_consumed = T := hq q (List.mem_cons_self q qs')
        have hnot : ¬ page_size < q.total_seats_consumed := by
          rw [hqT]; exact Nat.not_lt.mpr hT
        simp only [consumedLoop]
        rw [if_neg (by simp [hnot])]
        exact ih (idx + 1) (fun r hr => hq r (List.mem_cons_of_mem q hr))
    exact hrest (p :: rest) 0 hall

/-- C4 witness: with totalCount 301, pageSize 100, margin 10, a single check
for 14 calls is issued on the first page. -/
theorem one_quota_check_per_traversal_witness :
    (getConsumedLicenses c4_pages).checks = [(0, 14)] := by
  have h := (one_quota_check_per_traversal ⟨100, 301⟩ [⟨100, 301⟩, ⟨100, 301⟩, ⟨1, 301⟩]
    301 (by decide)).1 (by decide)
  simpa [c4_pages] using h

/-- C5 (refuting evaluation): on a 101-key input, `bulkInsert` submits a single
batch of 101 items — exceeding the backing store's 100-item per-batch limit —
instead of partitioning the key list. -/
theorem bulkInsert_single_batch_exceeds_limit :
    submittedBatchSizes c5_logins = [101]
    ∧ ∃ s ∈ submittedBatchSizes c5_logins, 100 < s := by
  constructor
  · simp [submittedBatchSizes, bulkInsert, c5_logins]
  · refine ⟨101, ?_, by norm_num⟩
    simp [submittedBatchSizes, bulkInsert, c5_logins]

/-- Whenever the probe loop terminates it has made at least one probe. -/
theorem callGitHubAPILoop_probes_pos (probeSeq : Nat → Option Nat)
    (callsNeeded : Nat) : ∀ (fuel i : Nat) (t : GateTrace),
    callGitHubAPILoop probeSeq callsNeeded fuel i = some t → 1 ≤ t.probes := by
  intro fuel
  induction fuel with
  | zero => intro i t h; exact absurd h (by simp [callGitHubAPILoop])
  | succ fuel ih =>
    intro i t h
    obtain ⟨p, w⟩ := t
    show 1 ≤ p
    by_cases hw : waitIfNotEnoughCalls (.num (getRateLimit (probeSeq i))) callsNeeded = true
    · simp [callGitHubAPILoop, hw] at h
      omega
    · simp [callGitHubAPILoop, hw] at h
      match hrec : callGitHubAPILoop probeSeq callsNeeded fuel (i + 1) with
      | some t' =>
        rw [hrec] at h
        simp at h
        omega
      | none => rw [hrec] at h; simp at h

/-- C6: the gate is fail-safe on probe failure. A failed probe is reported as
0 remaining; with a positive `callsNeeded` this fails the capacity check (so
the loop sleeps and retries rather than raising); and whenever the probe loop
does return, its last probe succeeded and reported at least `callsNeeded`
remaining — the gate never proceeds on the strength of a failed probe. -/
theorem probe_failure_fail_safe (callsNeeded : Nat) (hpos : 0 < callsNeeded) :
    getRateLimit none = 0
    ∧ waitIfNotEnoughCalls (.num (getRateLimit none)) callsNeeded = false
    ∧ (∀ (probeSeq : Nat → Option Nat) (fuel i : Nat) (t : GateTrace),
        callGitHubAPILoop probeSeq callsNeeded fuel i = some t →
        ∃ r, probeSeq (i + t.probes - 1) = some r ∧ callsNeeded ≤ r) := by
  refine ⟨rfl, ?_, ?_⟩
  · simp [waitIfNotEnoughCalls, jsLt, getRateLimit, hpos]
  · intro probeSeq fuel
    induction fuel with
    | zero => intro i t h; exact absurd h (by simp [callGitHubAPILoop])
    | succ fuel ih =>
      intro i t h
      obtain ⟨p, w⟩ := t
      by_cases hw : waitIfNotEnoughCalls (.num (getRateLimit (probeSeq i))) callsNeeded = true
      · have henough : callsNeeded ≤ getRateLimit (probeSeq i) := by
          have := hw
          simp [waitIfNotEnoughCalls, jsLt] at this
          exact this
        have hp1 : p = 1 := by
          simp [callGitHubAPILoop, hw] at h
          omega
        subst hp1
        match hp : probeSeq i with
        | some r =>
          refine ⟨r, by simp, ?_⟩
          rw [hp] at henough
          simpa [getRateLimit] using henough
        | none =>
          rw [hp] at henough
          simp [getRateLimit] at henough
          omega
      · simp [callGitHubAPILoop, hw] at h
        match hrec : callGitHubAPILoop probeSeq callsNeeded fuel (i + 1) with
        | some t' =>
          rw [hrec] at h
          simp at h
          obtain ⟨r, hr, hle⟩ := ih (i + 1) t' hrec
          refine ⟨r, ?_, hle⟩
          have hidx : i + p - 1 = i + 1 + t'.probes - 1 := by omega
          rw [hidx]
          exact hr
        | none => rw [hrec] at h; simp at h

/-- C6 witness: the fail-safe statement instantiated at `callsNeeded = 10`. -/
theorem probe_failure_fail_safe_witness :
    (0 : Nat) < 10
    ∧ (getRateLimit none = 0
      ∧ waitIfNotEnoughCalls (.num (getRateLimit none)) 10 = false
      ∧ (∀ (probeSeq : Nat → Option Nat) (fuel i : Nat) (t : GateTrace),
          callGitHubAPILoop probeSeq 10 fuel i = some t →
          ∃ r, probeSeq (i + t.probes - 1) = some r ∧ 10 ≤ r)) :=
  ⟨by decide, probe_failure_fail_safe 10 (by decide)⟩

/-- C7 (refuting evaluation): the callers hand `hold_until_rate_limit_success`
the raw response-headers object, so the `remaining < callsNeeded` comparison is
`NaN < n` (false) and the gate returns immediately with zero probes and zero
waits — here with a snapshot reporting only 3 remaining against 14 needed and a
probe stream that always fails. It never falls through to the probe loop. -/
theorem initial_headers_snapshot_ignored :
    hold_until_rate_limit_success 14 (some (JSVal.headersObj 3)) (fun _ => none) 5
      = some ⟨0, 0⟩
    ∧ ∀ (r callsNeeded : Nat) (probeSeq : Nat → Option Nat) (fuel : Nat),
        hold_until_rate_limit_success callsNeeded (some (JSVal.headersObj r)) probeSeq fuel
          = some ⟨0, 0⟩ := by
  refine ⟨rfl, ?_⟩
  intro r callsNeeded probeSeq fuel
  rfl

/-- C8 amended: the activity-cache point lookup never self-heals — for every
cache state and key it makes zero remote calls and zero cache writes, and a
present key is answered with the cached payload as-is — whereas the user-cache
point lookup does self-heal: a present, stale key with quota at or above the
safety floor triggers exactly one remote call and one upsert, and the row's
`lastUpdated` is advanced to `now`. -/
theorem activity_lookup_never_self_heals (users : List CachedRecord) (login : String) :
    ((getLastActivityDateForUserCached users login).remoteCalls = 0
      ∧ (getLastActivityDateForUserCached users login).cacheWrites = 0
      ∧ ∀ u, users.find? (fun v => v.rowKey = login) = some u →
          (getLastActivityDateForUserCached users login).result
            = ⟨u.lastActivityDate, u.lastUpdated⟩)
    ∧ ∀ (users' : List UserRec) (now rl : Nat) (data : UserData) (rem : Nat) (u : UserRec),
        users'.find? (fun v => v.rowKey = login) = some u →
        needToUpdate now u.lastUpdated = true →
        safetyFloor ≤ rl →
        getUserDataCached users' login now rl (.ok data rem)
          = .ok ⟨data, users'.map (fun v => if v.rowKey = login then
              ⟨u.rowKey, data.id, data.type, data.created_at, data.updated_at,
                data.company, data.name, some now⟩ else v), rem, 1, 1⟩ := by
  constructor
  · refine ⟨?_, ?_, ?_⟩
    · cases h : users.find? (fun u => u.rowKey = login) <;>
        simp [getLastActivityDateForUserCached, h]
    · cases h : users.find? (fun u => u.rowKey = login) <;>
        simp [getLastActivityDateForUserCached, h]
    · intro u hu
      simp [getLastActivityDateForUserCached, hu]
  · intro users' now rl data rem u hu hstale hrl
    simp [getUserDataCached, hu, hstale, Nat.not_lt.mpr hrl]

/-- C8 counterexample: with a cache configured, the key present, and the
record stale (`lastUpdated` 4 days old), the user-cache point lookup contacts
the remote source and writes to the cache (one remote call, one upsert): point
lookups do self-heal on this path, refuting the claim as stated. -/
theorem point_lookup_self_heals_counterexample :
    needToUpdate (4 * dayMs) (some 0) = true
    ∧ (getUserDataCached [c8_user] "alice" (4 * dayMs) 100 (.ok c8_live 99)).toOption.map
        (fun t => (t.remoteCalls, t.upserts)) = some (1, 1) := by
  constructor
  · decide
  · decide

/-- C8 witness: the amended statement applied to the concrete one-row caches. -/
theorem activity_lookup_never_self_heals_witness :
    (getLastActivityDateForUserCached c8_activity_users "alice").remoteCalls = 0
    ∧ (getLastActivityDateForUserCached c8_activity_users "alice").cacheWrites = 0
    ∧ getUserDataCached [c8_user] "alice" (4 * dayMs) 100 (.ok c8_live 99)
        = .ok ⟨c8_live, [⟨"alice", some 1, some "User", some 5, some 6, some "acme",
            some "Alice", some (4 * dayMs)⟩], 99, 1, 1⟩ := by
  refine ⟨(activity_lookup_never_self_heals c8_activity_users "alice").1.1,
    (activity_lookup_never_self_heals c8_activity_users "alice").1.2.1, ?_⟩
  have h := (activity_lookup_never_self_heals c8_activity_users "alice").2
    [c8_user] (4 * dayMs) 100 c8_live 99 c8_user (by decide) (by decide) (by decide)
  simpa [c8_user] using h

/-- C9: once the tracked quota is below the safety floor and no cache is
configured, every subsequent point lookup in the run returns the null result
(never an exception), the tracked quota never changes, and zero remote calls
are made for the rest of the run. -/
theorem no_cache_exhausted_never_calls_remote (rl now : Nat)
    (remotes : List FetchOutcome) (h : rl < safetyFloor) :
    runNoCacheLookups rl now remotes
      = (remotes.map (fun _ => (⟨none, none, rl⟩ : NoCacheResult)), rl, 0) := by
  induction remotes with
  | nil => rfl
  | cons remote rest ih =>
    simp [runNoCacheLookups, getLastActivityNoCache, h, ih]

/-- C9 witness: with tracked quota 3 (below the floor of 5) and three pending
outcomes, all three lookups return nulls and zero remote calls are made. -/
theorem no_cache_exhausted_never_calls_remote_witness :
    (3 : Nat) < safetyFloor
    ∧ runNoCacheLookups 3 77 [FetchOutcome.ok (some 1) 100, FetchOutcome.err,
        FetchOutcome.ok (some 2) 50]
      = ([⟨none, none, 3⟩, ⟨none, none, 3⟩, ⟨none, none, 3⟩], 3, 0) :=
  ⟨by decide,
    no_cache_exhausted_never_calls_remote 3 77
      [FetchOutcome.ok (some 1) 100, FetchOutcome.err, FetchOutcome.ok (some 2) 50]
      (by decide)⟩

/-- C10: with a cache configured, a present key whose record is stale is
answered with the cached payload unchanged when the tracked quota is below the
safety floor: no remote call, no upsert, the cache rows (and in particular the
record's `lastUpdated`) and the tracked quota are left exactly as they were. -/
theorem stale_lookup_below_floor_returns_cached (users : List UserRec)
    (login : String) (now rl : Nat) (remote : UserFetch) (u : UserRec)
    (hfind : users.find? (fun v => v.rowKey = login) = some u)
    (hstale : needToUpdate now u.lastUpdated = true)
    (hrl : rl < safetyFloor) :
    getUserDataCached users login now rl remote
      = .ok ⟨cachedUserData login u, users, rl, 0, 0⟩ := by
  simp [getUserDataCached, hfind, hstale, hrl]

/-- C10 witness: the stale row of `c8_user` with tracked quota 2 is returned
from cache untouched, with zero remote calls and zero upserts. -/
theorem stale_lookup_below_floor_returns_cached_witness :
    getUserDataCached [c8_user] "alice" (4 * dayMs) 2 (.ok c8_live 99)
      = .ok ⟨cachedUserData "alice" c8_user, [c8_user], 2, 0, 0⟩ :=
  stale_lookup_below_floor_returns_cached [c8_user] "alice" (4 * dayMs) 2
    (.ok c8_live 99) c8_user (by decide) (by decide) (by decide)

end UserReport
